import Mathlib

/- Verification development for the ddct check-and-report engine
   (src/common.py and friends).  Python dicts are embedded as
   insertion-ordered association lists, Python sets as duplicate-free
   lists in insertion order, and raising code as `Except String`
   (the error string names the Python exception class). -/

/-- Left brace character, built by code point to keep it out of literals. -/
def lbrace : Char := Char.ofNat 123

/-- Right brace character. -/
def rbrace : Char := Char.ofNat 125

/-- ASCII escape character used by the ANSI color codes. -/
def escCh : Char := Char.ofNat 27

/-- Lookup in an insertion-ordered association list (Python `d[k]` / `k in d`). -/
def dlookup (k : String) : List (String × β) → Option β
  | [] => none
  | (k', v) :: rest => if k = k' then some v else dlookup k rest

/-- Python `k in d`. -/
def dcontains (k : String) (m : List (String × β)) : Bool :=
  (dlookup k m).isSome

/-- Python `d[k] = v`: replace the value in place if the key exists,
otherwise append the new binding (dicts preserve insertion order). -/
def dset (k : String) (v : β) : List (String × β) → List (String × β)
  | [] => [(k, v)]
  | (k', v') :: rest => if k = k' then (k, v) :: rest else (k', v') :: dset k v rest

/-- Python `s.add(x)` on a set modelled as an insertion-ordered
duplicate-free list. -/
def sadd (x : String) (s : List String) : List String :=
  if x ∈ s then s else s ++ [x]

/-- Core of Python `str.format` with auto-numbered fields only, the sole
form the source uses.  `\x7b\x7d` substitutes the next positional argument
(whose text is not re-scanned), doubled braces escape, a brace in any
other position is modelled as an error (Python would raise ValueError or
KeyError there); running out of arguments is IndexError. -/
def pyFormatAux : List Char → List String → Except String (List Char)
  | [], _ => .ok []
  | c :: cs, args =>
    if c = lbrace then
      match cs with
      | c2 :: cs2 =>
        if c2 = lbrace then (pyFormatAux cs2 args).map (fun t => lbrace :: t)
        else if c2 = rbrace then
          match args with
          | [] => .error "IndexError"
          | a :: args2 => (pyFormatAux cs2 args2).map (fun t => a.data ++ t)
        else .error "ValueError"
      | [] => .error "ValueError"
    else if c = rbrace then
      match cs with
      | c2 :: cs2 =>
        if c2 = rbrace then (pyFormatAux cs2 args).map (fun t => rbrace :: t)
        else .error "ValueError"
      | [] => .error "ValueError"
    else (pyFormatAux cs args).map (fun t => c :: t)

/-- Python `template.format(*args)`. -/
def pyFormat (s : String) (args : List String) : Except String String :=
  (pyFormatAux s.data args).map String.mk

/-- Source `FIX = "FIX \x7b\x7d"` from src/common.py. -/
def FIX : String := "FIX {}"

/-- Source `ISSUE = "ISSUE \x7b\x7d"` from src/common.py. -/
def ISSUE : String := "ISSUE {}"

/-- Source `SUCCESS = apply_color("Success", color="green")` from src/common.py:
the literal with the ANSI green prefix and reset suffix. -/
def SUCCESS : String :=
  String.mk (escCh :: "[32m".data) ++ "Success" ++ String.mk (escCh :: "[0m".data)

/-- Source `FAILURE = apply_color("FAIL", color="red")` from src/common.py. -/
def FAILURE : String :=
  String.mk (escCh :: "[31m".data) ++ "FAIL" ++ String.mk (escCh :: "[0m".data)

/-- Source `WARNING = apply_color("WARN", color="yellow")` from src/common.py. -/
def WARNING : String :=
  String.mk (escCh :: "[33m".data) ++ "WARN" ++ String.mk (escCh :: "[0m".data)

/-- Source `Report.format_issue(issue, uid)`:
`"\x7b\x7d: \x7b\x7d".format(ISSUE, issue).format(uid)`. -/
def format_issue (issue uid : String) : Except String String := do
  let s ← pyFormat "{}: {}" [ISSUE, issue]
  pyFormat s [uid]

/-- Source `Report.format_fix(fix, uid)`:
`"\x7b\x7d: \x7b\x7d".format(FIX, fix).format(uid)`. -/
def format_fix (fx uid : String) : Except String String := do
  let s ← pyFormat "{}: {}" [FIX, fx]
  pyFormat s [uid]

/-- A string containing no brace character, so `str.format` passes it
through verbatim. -/
def brace_free (s : String) : Bool :=
  s.data.all (fun c => (c != lbrace) && (c != rbrace))

/-- Host-state values: the checks store strings or (nested) dicts. -/
inductive PyVal where
  | str : String → PyVal
  | dict : List (String × PyVal) → PyVal

/-- The host_state attribute: normally a dict, but `add_host_state`
can overwrite it with the hostname string (the slip verified below). -/
inductive HState where
  | map : List (String × PyVal) → HState
  | strv : String → HState

/-- The `Report` aggregate of src/common.py, field for field. -/
structure Report where
  hostname : Option String
  success : List String
  warning : List (String × List String)
  warning_id : List (String × List String)
  warning_by_id : List (String × (String × String))
  fix_by_id : List (String × String)
  failure : List (String × List String)
  failure_id : List (String × List String)
  failure_by_id : List (String × (String × String))
  tags : List (String × List String)
  host_state : HState

/-- Source `Report.__init__`: everything empty, hostname unset. -/
def emptyReport : Report :=
  { hostname := none, success := [], warning := [], warning_id := [],
    warning_by_id := [], fix_by_id := [], failure := [], failure_id := [],
    failure_by_id := [], tags := [], host_state := .map [] }

/-- The tag-recording loop shared by the three record operations:
`for tag in tags: self.tags[name].add(tag)`.  Raises KeyError when the
name has no entry in the tags dict (the initialization right before the
loop is skipped when `name` is an element of the `tags` argument). -/
def addTags (name : String) (tags : List String)
    (m : List (String × List String)) : Except String (List (String × List String)) :=
  tags.foldlM (fun m tag =>
    match dlookup name m with
    | some s => .ok (dset name (sadd tag s) m)
    | none => .error "KeyError") m

/-- Source `Report.add_success(name, tags)`.  The whole body is guarded by
`name not in self.failure and name not in self.warning`; note that the
tags initialization tests `name not in tags` — the argument, not
`self.tags` — exactly as the source does. -/
def add_success (name : String) (tags : List String) (r : Report) :
    Except String Report :=
  if dcontains name r.failure || dcontains name r.warning then .ok r
  else
    (addTags name tags (if name ∈ tags then r.tags else dset name [] r.tags)).bind
      fun tagsM => .ok { r with success := r.success ++ [name], tags := tagsM }

/-- The `if fix: self.fix_by_id[uid] = self.format_fix(fix, uid)` step
shared by add_warning and add_failure (an empty fix string is falsy and
skipped, like `None`). -/
def fixStep (fx : Option String) (uid : String)
    (m : List (String × String)) : Except String (List (String × String)) :=
  match fx with
  | none => .ok m
  | some f =>
    if f = "" then .ok m
    else
      match format_fix f uid with
      | .error e => .error e
      | .ok s => .ok (dset uid s m)

/-- Source `Report.add_warning(name, reason, uid, tags, fix=None)`.  The reason
is formatted before the global WARNINGS switch (here the parameter `w`)
is consulted; with warnings disabled the call records nothing. -/
def add_warning (w : Bool) (name reason uid : String) (tags : List String)
    (fx : Option String) (r : Report) : Except String Report :=
  (format_issue reason uid).bind fun reason =>
    if w then
      let warning :=
        if dcontains name r.warning then r.warning else dset name [] r.warning
      let warning_id :=
        if dcontains name r.warning then r.warning_id else dset name [] r.warning_id
      let warning := dset name ((dlookup name warning).getD [] ++ [reason]) warning
      let warning_id := dset name ((dlookup name warning_id).getD [] ++ [uid]) warning_id
      let warning_by_id := dset uid (name, reason) r.warning_by_id
      (fixStep fx uid r.fix_by_id).bind fun fix_by_id =>
        (addTags name tags (if name ∈ tags then r.tags else dset name [] r.tags)).bind
          fun tagsM =>
            .ok { r with warning := warning, warning_id := warning_id,
                         warning_by_id := warning_by_id, fix_by_id := fix_by_id,
                         tags := tagsM }
    else .ok r

/-- Source `Report.add_failure(name, reason, uid, tags, fix=None)`: always
records, never suppressed. -/
def add_failure (name reason uid : String) (tags : List String)
    (fx : Option String) (r : Report) : Except String Report :=
  (format_issue reason uid).bind fun reason =>
    let failure :=
      if dcontains name r.failure then r.failure else dset name [] r.failure
    let failure_id :=
      if dcontains name r.failure then r.failure_id else dset name [] r.failure_id
    let failure := dset name ((dlookup name failure).getD [] ++ [reason]) failure
    let failure_id := dset name ((dlookup name failure_id).getD [] ++ [uid]) failure_id
    let failure_by_id := dset uid (name, reason) r.failure_by_id
    (fixStep fx uid r.fix_by_id).bind fun fix_by_id =>
      (addTags name tags (if name ∈ tags then r.tags else dset name [] r.tags)).bind
        fun tagsM =>
          .ok { r with failure := failure, failure_id := failure_id,
                       failure_by_id := failure_by_id, fix_by_id := fix_by_id,
                       tags := tagsM }

/-- Source `Report.add_host_state(key, value)`.  `ghost` stands in for
`socket.gethostname()`.  When the key "hostname" is already present the
source assigns the hostname string to `self.host_state` and then does
item assignment on that string, which raises TypeError; once host_state
is a string every further call raises the same way. -/
def add_host_state (ghost : String) (key : String) (value : PyVal) (r : Report) :
    Except String Report :=
  let hn := match r.hostname with
            | none => ghost
            | some "" => ghost
            | some h => h
  match r.host_state with
  | .map m =>
    if dcontains "hostname" m then .error "TypeError"
    else .ok { r with hostname := some hn, host_state := .map (dset key value m) }
  | .strv _ => .error "TypeError"

/-- Source `Report.code_list()` with the global WARNINGS switch as parameter
`w` (the `print` side effect is dropped): warning codes first when
warnings are enabled, then all failure codes. -/
def code_list (w : Bool) (r : Report) : List String :=
  (if w then r.warning_by_id.map Prod.fst else []) ++ r.failure_by_id.map Prod.fst

/-- The JSON document shape of `Report.gen_json()`. -/
structure JsonReport where
  host : String
  success : List String
  warnings : List (String × (String × String))
  failures : List (String × (String × String))
  tags : List (String × List String)
  host_state : HState

/-- Source `Report.gen_json()`; `ghost` stands in for `socket.gethostname()`. -/
def gen_json (ghost : String) (r : Report) : JsonReport :=
  let hn := match r.hostname with
            | none => ghost
            | some "" => ghost
            | some h => h
  { host := hn, success := r.success, warnings := r.warning_by_id,
    failures := r.failure_by_id, tags := r.tags, host_state := r.host_state }

/-- The semantics of the `check` decorator's `_inner_check_func`: run the
check body (a mutation of the shared report that may raise), then call
`sf()`, which resolves the decorator's name and tags and calls
`report.add_success(name, tags)`. -/
def inner_check_func (name : String) (tags : List String)
    (body : Report → Except String Report) (r : Report) : Except String Report :=
  (body r).bind (add_success name tags)

/-- Unwrap an `.ok` result, defaulting to the empty report (used only to
state closed facts about calls that are proved to succeed). -/
def getOk : Except String Report → Report
  | .ok r => r
  | .error _ => emptyReport

/- Helper lemmas about the dictionary embedding, the format model and the
   record operations. -/

/-- Setting a key makes it present with that value. -/
theorem dlookup_dset_self (k : String) (v : β) (m : List (String × β)) :
    dlookup k (dset k v m) = some v := by
  induction m with
  | nil => simp [dset, dlookup]
  | cons p rest ih =>
    obtain ⟨k', v'⟩ := p
    by_cases h : k = k'
    · simp [dset, dlookup, h]
    · simp [dset, dlookup, h, ih]

/-- Setting one key leaves lookups of other keys unchanged. -/
theorem dlookup_dset_ne (k k' : String) (v : β) (m : List (String × β))
    (h : k ≠ k') : dlookup k (dset k' v m) = dlookup k m := by
  induction m with
  | nil => simp [dset, dlookup, h]
  | cons p rest ih =>
    obtain ⟨k2, v2⟩ := p
    by_cases h2 : k' = k2
    · subst h2; simp [dset, dlookup, h]
    · by_cases h3 : k = k2 <;> simp [dset, dlookup, h2, h3, ih]

/-- Membership after a set. -/
theorem dcontains_dset_self (k : String) (v : β) (m : List (String × β)) :
    dcontains k (dset k v m) = true := by
  simp [dcontains, dlookup_dset_self]

/-- A key is among the mapped-out firsts iff a lookup finds it. -/
theorem mem_map_fst_iff_dlookup (k : String) (m : List (String × β)) :
    k ∈ m.map Prod.fst ↔ (dlookup k m).isSome := by
  induction m with
  | nil => simp [dlookup]
  | cons p rest ih =>
    obtain ⟨k', v'⟩ := p
    by_cases h : k = k'
    · simp [dlookup, h]
    · simp [dlookup, h, ih]

/-- Inversion for a successful `Except.bind`. -/
theorem except_bind_ok {α β : Type} {e : Except String α} {f : α → Except String β}
    {b : β} (h : e.bind f = .ok b) : ∃ a, e = .ok a ∧ f a = .ok b := by
  cases e with
  | error e0 => simp [Except.bind] at h
  | ok a => exact ⟨a, rfl, h⟩

/-- The tag loop on an empty tag set does nothing. -/
theorem addTags_nil (name : String) (m : List (String × List String)) :
    addTags name [] m = .ok m := rfl

/-- The tag loop succeeds whenever the name already has an entry, and the
entry survives. -/
theorem addTags_ok (name : String) (tags : List String)
    (m : List (String × List String)) (h : (dlookup name m).isSome) :
    ∃ m', addTags name tags m = .ok m' ∧ (dlookup name m').isSome := by
  induction tags generalizing m with
  | nil => exact ⟨m, rfl, h⟩
  | cons t ts ih =>
    cases hl : dlookup name m with
    | none => rw [hl] at h; simp at h
    | some s =>
      have step : addTags name (t :: ts) m = addTags name ts (dset name (sadd t s) m) := by
        simp only [addTags, List.foldlM_cons, hl]
        rfl
      obtain ⟨m', hm', hsome⟩ := ih (dset name (sadd t s) m)
        (by simp [dlookup_dset_self])
      exact ⟨m', by rw [step, hm'], hsome⟩

/-- The tag loop raises KeyError on its first iteration when the name has
no entry in the tags dict and the tag set is non-empty. -/
theorem addTags_err (name : String) (t : String) (ts : List String)
    (m : List (String × List String)) (h : dlookup name m = none) :
    addTags name (t :: ts) m = .error "KeyError" := by
  simp only [addTags, List.foldlM_cons, h]
  rfl

/-- Map-fusion for `Except.map`. -/
theorem except_map_map (e : Except String (List Char)) (f g : List Char → List Char) :
    (e.map f).map g = e.map (fun t => g (f t)) := by
  cases e <;> rfl

/-- A plain character (no brace) passes through one format step. -/
theorem pyFormatAux_cons_plain (c : Char) (cs : List Char) (args : List String)
    (h1 : c ≠ lbrace) (h2 : c ≠ rbrace) :
    pyFormatAux (c :: cs) args = (pyFormatAux cs args).map (fun t => c :: t) := by
  rw [pyFormatAux.eq_def]
  simp [h1, h2]

/-- An auto-numbered field consumes the next argument, whose text is
spliced without rescanning. -/
theorem pyFormatAux_field (cs : List Char) (a : String) (args : List String) :
    pyFormatAux (lbrace :: rbrace :: cs) (a :: args)
      = (pyFormatAux cs args).map (fun t => a.data ++ t) := rfl

/-- A brace-free character list is formatted to itself. -/
theorem pyFormatAux_free (cs : List Char) (args : List String)
    (h : ∀ c ∈ cs, c ≠ lbrace ∧ c ≠ rbrace) : pyFormatAux cs args = .ok cs := by
  induction cs with
  | nil => rfl
  | cons c cs ih =>
    have hc := h c (List.mem_cons_self c cs)
    rw [pyFormatAux_cons_plain c cs args hc.1 hc.2,
        ih (fun c2 hm => h c2 (List.mem_cons_of_mem c hm))]
    rfl

/-- A brace-free prefix passes through and the remainder is formatted. -/
theorem pyFormatAux_append_free (cs rest : List Char) (args : List String)
    (h : ∀ c ∈ cs, c ≠ lbrace ∧ c ≠ rbrace) :
    pyFormatAux (cs ++ rest) args
      = (pyFormatAux rest args).map (fun t => cs ++ t) := by
  induction cs with
  | nil =>
    rw [List.nil_append]
    cases pyFormatAux rest args <;> rfl
  | cons c cs ih =>
    have hc := h c (List.mem_cons_self c cs)
    rw [List.cons_append, pyFormatAux_cons_plain c _ args hc.1 hc.2,
        ih (fun c2 hm => h c2 (List.mem_cons_of_mem c hm)), except_map_map]
    rfl

/-- Unpack `brace_free` to a character-level statement. -/
theorem brace_free_chars (s : String) (h : brace_free s = true) :
    ∀ c ∈ s.data, c ≠ lbrace ∧ c ≠ rbrace := by
  intro c hc
  unfold brace_free at h
  have h2 := List.all_eq_true.mp h c hc
  simp only [Bool.and_eq_true, bne_iff_ne, ne_eq] at h2
  exact h2

/-- Source `format_issue` on a brace-free reason yields exactly the
ISSUE-and-code prefixed text. -/
theorem format_issue_free (issue uid : String) (h : brace_free issue = true) :
    format_issue issue uid = .ok ("ISSUE " ++ uid ++ ": " ++ issue) := by
  have hch := brace_free_chars issue h
  have e1 : format_issue issue uid
      = (pyFormatAux ("ISSUE ".data ++
          (lbrace :: rbrace :: (':' :: ' ' :: (issue.data ++ [])))) [uid]).map
          String.mk := rfl
  rw [e1, pyFormatAux_append_free _ _ _ (by decide), pyFormatAux_field,
      pyFormatAux_cons_plain ':' _ [] (by decide) (by decide),
      pyFormatAux_cons_plain ' ' _ [] (by decide) (by decide),
      pyFormatAux_free (issue.data ++ []) []
        (fun c hc => hch c (by simpa using hc))]
  simp only [Except.map]
  apply congrArg
  apply String.ext
  simp [String.data_append, List.append_assoc]

/-- Inversion of a successful `add_failure`: the formatted reason is
indexed under the code, the name is in the failure dict, and the
success list and warning structures are untouched. -/
theorem add_failure_ok (name reason uid : String) (tags : List String)
    (fx : Option String) (r r' : Report)
    (h : add_failure name reason uid tags fx r = .ok r') :
    ∃ fr, format_issue reason uid = .ok fr
      ∧ r'.failure_by_id = dset uid (name, fr) r.failure_by_id
      ∧ dcontains name r'.failure = true
      ∧ r'.success = r.success
      ∧ r'.warning = r.warning
      ∧ r'.warning_by_id = r.warning_by_id := by
  unfold add_failure at h
  obtain ⟨fr, hfr, h⟩ := except_bind_ok h
  obtain ⟨fb, hfb, h⟩ := except_bind_ok h
  obtain ⟨tm, htm, h⟩ := except_bind_ok h
  injection h with h2
  subst h2
  exact ⟨fr, hfr, rfl, dcontains_dset_self name _ _, rfl, rfl, rfl⟩

/-- Inversion of a successful `add_warning` with warnings enabled. -/
theorem add_warning_ok (name reason uid : String) (tags : List String)
    (fx : Option String) (r r' : Report)
    (h : add_warning true name reason uid tags fx r = .ok r') :
    ∃ fr, format_issue reason uid = .ok fr
      ∧ r'.warning_by_id = dset uid (name, fr) r.warning_by_id
      ∧ dcontains name r'.warning = true
      ∧ r'.success = r.success
      ∧ r'.failure = r.failure
      ∧ r'.failure_by_id = r.failure_by_id := by
  unfold add_warning at h
  obtain ⟨fr, hfr, h⟩ := except_bind_ok h
  rw [if_pos rfl] at h
  obtain ⟨fb, hfb, h⟩ := except_bind_ok h
  obtain ⟨tm, htm, h⟩ := except_bind_ok h
  injection h with h2
  subst h2
  exact ⟨fr, hfr, rfl, dcontains_dset_self name _ _, rfl, rfl, rfl⟩

/-- Source `add_success` on a name that already has a failure or warning is a
no-op that cannot raise. -/
theorem add_success_noop (name : String) (tags : List String) (r : Report)
    (h : dcontains name r.failure = true ∨ dcontains name r.warning = true) :
    add_success name tags r = .ok r := by
  unfold add_success
  rcases h with h | h <;> simp [h]

/-- A successful `add_success` on an unclassified name appends it to the
success list and leaves the failure/warning structures untouched. -/
theorem add_success_mem (name : String) (tags : List String) (r r' : Report)
    (hf : dcontains name r.failure = false)
    (hw : dcontains name r.warning = false)
    (h : add_success name tags r = .ok r') :
    name ∈ r'.success ∧ r'.failure = r.failure ∧ r'.warning = r.warning := by
  unfold add_success at h
  rw [hf, hw] at h
  simp only [Bool.or_self, Bool.false_eq_true, if_false] at h
  obtain ⟨tm, htm, h⟩ := except_bind_ok h
  injection h with h2
  subst h2
  exact ⟨by simp, rfl, rfl⟩

/-- Source `add_success` cannot raise when the name is not among its own tags
or the report already holds a tags entry for it. -/
theorem add_success_total (name : String) (tags : List String) (r : Report)
    (h : name ∉ tags ∨ (dlookup name r.tags).isSome) :
    ∃ r', add_success name tags r = .ok r' := by
  unfold add_success
  by_cases hc : (dcontains name r.failure || dcontains name r.warning) = true
  · exact ⟨r, by rw [if_pos hc]⟩
  · rw [if_neg hc]
    by_cases hm : name ∈ tags
    · have hs : (dlookup name r.tags).isSome := by
        rcases h with h | h
        · exact absurd hm h
        · exact h
      obtain ⟨m', hm', _⟩ := addTags_ok name tags r.tags hs
      exact ⟨_, by rw [if_pos hm, hm']; rfl⟩
    · obtain ⟨m', hm', _⟩ := addTags_ok name tags (dset name [] r.tags)
        (by simp [dlookup_dset_self])
      exact ⟨_, by rw [if_neg hm, hm']; rfl⟩

/-- Source `add_success` raises KeyError when the name is an element of its own
non-trivial tags argument, has no tags entry, and is not yet classified. -/
theorem add_success_keyerr (name : String) (tags : List String) (r : Report)
    (hf : dcontains name r.failure = false)
    (hw : dcontains name r.warning = false)
    (hmem : name ∈ tags) (hnone : dlookup name r.tags = none) :
    add_success name tags r = .error "KeyError" := by
  unfold add_success
  rw [hf, hw]
  simp only [Bool.or_self, Bool.false_eq_true, if_false]
  cases tags with
  | nil => cases hmem
  | cons t ts =>
    rw [if_pos hmem, addTags_err name t ts r.tags hnone]
    rfl

/-- Rewrite a bind whose left side is known to succeed. -/
theorem except_bind_ok_intro {α β : Type} {e : Except String α}
    {f : α → Except String β} {a : α} (h : e = .ok a) : e.bind f = f a := by
  rw [h]
  rfl

/-- Source `add_failure` cannot raise for a brace-free reason with no fix when
the name is not among its own tags or already has a tags entry. -/
theorem add_failure_total (name reason uid : String) (tags : List String)
    (r : Report) (hbr : brace_free reason = true)
    (h : name ∉ tags ∨ (dlookup name r.tags).isSome) :
    ∃ r', add_failure name reason uid tags none r = .ok r' := by
  unfold add_failure
  rw [except_bind_ok_intro (format_issue_free reason uid hbr)]
  dsimp only
  rw [except_bind_ok_intro
    (show fixStep none uid r.fix_by_id = .ok r.fix_by_id from rfl)]
  have hs : (dlookup name (if name ∈ tags then r.tags else dset name [] r.tags)).isSome := by
    by_cases hm : name ∈ tags
    · rw [if_pos hm]
      rcases h with h | h
      · exact absurd hm h
      · exact h
    · rw [if_neg hm]
      simp [dlookup_dset_self]
  obtain ⟨m', hm', _⟩ := addTags_ok name tags _ hs
  rw [except_bind_ok_intro hm']
  exact ⟨_, rfl⟩

/-- Source `add_failure` raises KeyError when the name is an element of its own
tags argument and the report has no tags entry for it. -/
theorem add_failure_keyerr (name reason uid : String) (tags : List String)
    (r : Report) (hbr : brace_free reason = true) (hmem : name ∈ tags)
    (hnone : dlookup name r.tags = none) :
    add_failure name reason uid tags none r = .error "KeyError" := by
  unfold add_failure
  rw [except_bind_ok_intro (format_issue_free reason uid hbr)]
  dsimp only
  rw [except_bind_ok_intro
    (show fixStep none uid r.fix_by_id = .ok r.fix_by_id from rfl)]
  cases tags with
  | nil => cases hmem
  | cons t ts =>
    rw [if_pos hmem, addTags_err name t ts r.tags hnone]
    rfl

/-- Source `add_warning` (warnings enabled) cannot raise under the same
precondition as `add_failure`. -/
theorem add_warning_total (name reason uid : String) (tags : List String)
    (r : Report) (hbr : brace_free reason = true)
    (h : name ∉ tags ∨ (dlookup name r.tags).isSome) :
    ∃ r', add_warning true name reason uid tags none r = .ok r' := by
  unfold add_warning
  rw [except_bind_ok_intro (format_issue_free reason uid hbr)]
  dsimp only
  rw [except_bind_ok_intro
    (show fixStep none uid r.fix_by_id = .ok r.fix_by_id from rfl)]
  have hs : (dlookup name (if name ∈ tags then r.tags else dset name [] r.tags)).isSome := by
    by_cases hm : name ∈ tags
    · rw [if_pos hm]
      rcases h with h | h
      · exact absurd hm h
      · exact h
    · rw [if_neg hm]
      simp [dlookup_dset_self]
  obtain ⟨m', hm', _⟩ := addTags_ok name tags _ hs
  rw [except_bind_ok_intro hm']
  exact ⟨_, rfl⟩

/-- Source `add_warning` (warnings enabled) raises KeyError under the same
condition as `add_failure`. -/
theorem add_warning_keyerr (name reason uid : String) (tags : List String)
    (r : Report) (hbr : brace_free reason = true) (hmem : name ∈ tags)
    (hnone : dlookup name r.tags = none) :
    add_warning true name reason uid tags none r = .error "KeyError" := by
  unfold add_warning
  rw [except_bind_ok_intro (format_issue_free reason uid hbr)]
  dsimp only
  rw [except_bind_ok_intro
    (show fixStep none uid r.fix_by_id = .ok r.fix_by_id from rfl)]
  cases tags with
  | nil => cases hmem
  | cons t ts =>
    rw [if_pos hmem, addTags_err name t ts r.tags hnone]
    rfl

/-- With warnings globally disabled, `add_warning` records nothing (but
still formats the reason first). -/
theorem add_warning_disabled (name reason uid : String) (tags : List String)
    (fx : Option String) (r : Report) (fr : String)
    (hf : format_issue reason uid = .ok fr) :
    add_warning false name reason uid tags fx r = .ok r := by
  unfold add_warning
  rw [except_bind_ok_intro hf]
  rfl

/- Concrete reports used by counterexamples and witnesses. -/

/-- One failure for check "a" under code "u". -/
def rF1 : Report := getOk (add_failure "a" "x" "u" [] none emptyReport)

/-- One warning for check "a" under code "u" (warnings enabled). -/
def rW1 : Report := getOk (add_warning true "a" "x" "u" [] none emptyReport)

/-- One success for check "a". -/
def rSucc : Report := getOk (add_success "a" [] emptyReport)

/-- Success for "a" recorded first, then a failure for "a". -/
def reportSF : Report :=
  getOk ((add_success "a" [] emptyReport).bind (add_failure "a" "x" "u" [] none))

/-- A further failure recorded on top of `reportSF`. -/
def rF2 : Report := getOk (add_failure "a" "y" "u2" [] none reportSF)

/-- A further warning recorded on top of `reportSF`. -/
def rW2 : Report := getOk (add_warning true "a" "y" "u2" [] none reportSF)

/-- Two failures for "a" with different tag arguments. -/
def reportT2 : Report :=
  getOk ((add_failure "a" "r1" "u1" ["t1"] none emptyReport).bind
    (add_failure "a" "r2" "u2" ["t2"] none))

/-- A report with a failure entry for "a" but no tags entry (the state
Python is left in when the classifying call raised after its dict
mutations). -/
def reportFnoTags : Report := { emptyReport with failure := [("a", ["r"])] }

/-- The report after storing host-state key "hostname". -/
def reportHS : Report :=
  getOk (add_host_state "h" "hostname" (.str "x") emptyReport)

/-- C1 counterexample: recording a success for "a" and then a failure for
"a" leaves "a" in the success list and in the failure set at the same
time, contradicting the claimed exclusivity for success-before-failure
call orders. -/
theorem c1_success_not_excluded :
    (add_success "a" [] emptyReport).bind (add_failure "a" "x" "u" [] none)
      = .ok reportSF
    ∧ "a" ∈ reportSF.success ∧ dcontains "a" reportSF.failure = true := by
  refine ⟨rfl, ?_, rfl⟩
  decide

/-- C1 (amended): a Success recorded after a failure or warning for the
name is a no-op, and failure/warning recording always enters the name in
its own structure without purging the success list — so order
independence holds except that a success recorded before the first
failure/warning for the name survives in the success list. -/
theorem c1_classification (name reason uid : String) (tags : List String)
    (fx : Option String) (r r1 r2 : Report) :
    ((dcontains name r.failure = true ∨ dcontains name r.warning = true) →
        add_success name tags r = .ok r)
    ∧ (add_failure name reason uid tags fx r = .ok r1 →
        dcontains name r1.failure = true ∧ r1.success = r.success)
    ∧ (add_warning true name reason uid tags fx r = .ok r2 →
        dcontains name r2.warning = true ∧ r2.success = r.success) := by
  refine ⟨add_success_noop name tags r, ?_, ?_⟩
  · intro h
    obtain ⟨fr, _, _, hc, hs, _, _⟩ := add_failure_ok name reason uid tags fx r r1 h
    exact ⟨hc, hs⟩
  · intro h
    obtain ⟨fr, _, _, hc, hs, _, _⟩ := add_warning_ok name reason uid tags fx r r2 h
    exact ⟨hc, hs⟩

/-- Witness for `c1_classification` at the concrete report `reportSF`. -/
theorem c1_classification_witness :
    add_success "a" [] reportSF = .ok reportSF
    ∧ (dcontains "a" rF2.failure = true ∧ rF2.success = reportSF.success)
    ∧ (dcontains "a" rW2.warning = true ∧ rW2.success = reportSF.success) := by
  obtain ⟨h1, h2, h3⟩ := c1_classification "a" "y" "u2" [] none reportSF rF2 rW2
  exact ⟨h1 (Or.inl rfl), h2 rfl, h3 rfl⟩

/-- C3: evaluating the code at two failure calls for "a" with tag sets
containing "t1" and then "t2" leaves the tag set at just "t2" — the
second call resets the accumulated tags because the source tests
`name not in tags` (the argument) instead of `name not in self.tags`. -/
theorem c3_tags_reset :
    (add_failure "a" "r1" "u1" ["t1"] none emptyReport).bind
      (add_failure "a" "r2" "u2" ["t2"] none) = .ok reportT2
    ∧ dlookup "a" reportT2.tags = some ["t2"] := ⟨rfl, rfl⟩

/-- C5: every code of a successful add_failure is in code_list under
either warnings mode; every code of a successful add_warning (warnings
enabled) is in code_list with warnings enabled; with warnings disabled,
code_list holds exactly the failure codes. -/
theorem c5_codes (w : Bool) (name reason uid : String) (tags : List String)
    (fx : Option String) (r r1 r2 : Report) :
    (add_failure name reason uid tags fx r = .ok r1 → uid ∈ code_list w r1)
    ∧ (add_warning true name reason uid tags fx r = .ok r2 →
        uid ∈ code_list true r2)
    ∧ (∀ c, c ∈ code_list false r ↔ (dlookup c r.failure_by_id).isSome) := by
  refine ⟨?_, ?_, ?_⟩
  · intro h
    obtain ⟨fr, _, hb, _, _, _, _⟩ := add_failure_ok name reason uid tags fx r r1 h
    unfold code_list
    apply List.mem_append_right
    rw [hb]
    exact (mem_map_fst_iff_dlookup uid _).mpr (by simp [dlookup_dset_self])
  · intro h
    obtain ⟨fr, _, hb, _, _, _, _⟩ := add_warning_ok name reason uid tags fx r r2 h
    unfold code_list
    apply List.mem_append_left
    show uid ∈ List.map Prod.fst r2.warning_by_id
    rw [hb]
    exact (mem_map_fst_iff_dlookup uid _).mpr (by simp [dlookup_dset_self])
  · intro c
    show c ∈ List.map Prod.fst r.failure_by_id ↔ _
    exact mem_map_fst_iff_dlookup c r.failure_by_id

/-- Witness for `c5_codes` at concrete one-failure and one-warning
reports. -/
theorem c5_codes_witness :
    "u" ∈ code_list false rF1 ∧ "u" ∈ code_list true rW1
    ∧ ("u" ∈ code_list false emptyReport
        ↔ (dlookup "u" emptyReport.failure_by_id).isSome) := by
  obtain ⟨h1, h2, h3⟩ := c5_codes false "a" "x" "u" [] none emptyReport rF1 rW1
  exact ⟨h1 rfl, h2 rfl, h3 "u"⟩

/-- C6: when a check body completes normally, the decorator's implicit
success call records Success for the registered name unless the body
already recorded a warning or failure for that name, in which case it
is a no-op and the non-success classification is kept. -/
theorem c6_implicit_success (name : String) (tags : List String)
    (body : Report → Except String Report) (r r1 : Report)
    (hb : body r = .ok r1) :
    ((dcontains name r1.failure = true ∨ dcontains name r1.warning = true) →
        inner_check_func name tags body r = .ok r1)
    ∧ (dcontains name r1.failure = false → dcontains name r1.warning = false →
        ∀ r2, inner_check_func name tags body r = .ok r2 →
          name ∈ r2.success ∧ r2.failure = r1.failure ∧ r2.warning = r1.warning) := by
  constructor
  · intro h
    unfold inner_check_func
    rw [except_bind_ok_intro hb]
    exact add_success_noop name tags r1 h
  · intro hf hw r2 h2
    unfold inner_check_func at h2
    rw [except_bind_ok_intro hb] at h2
    exact add_success_mem name tags r1 r2 hf hw h2

/-- Witness for `c6_implicit_success`: a body that records a failure for
"a" (the implicit success is a no-op) and a body that records nothing
(the name is recorded as a success). -/
theorem c6_implicit_success_witness :
    inner_check_func "a" [] (add_failure "a" "x" "u" [] none) emptyReport = .ok rF1
    ∧ ("a" ∈ rSucc.success ∧ rSucc.failure = emptyReport.failure
        ∧ rSucc.warning = emptyReport.warning) := by
  constructor
  · exact (c6_implicit_success "a" [] (add_failure "a" "x" "u" [] none)
      emptyReport rF1 rfl).1 (Or.inl rfl)
  · exact (c6_implicit_success "a" [] (fun r => .ok r)
      emptyReport emptyReport rfl).2 rfl rfl rSucc rfl

/-- C9: for a brace-free reason, the reason stored in the code index by
add_failure/add_warning, and hence the one emitted by gen_json, is
exactly the text prefixed with the literal word ISSUE and the code. -/
theorem c9_issue_code_reason (name reason uid ghost : String) (tags : List String)
    (fx : Option String) (r r1 r2 : Report) (hbr : brace_free reason = true) :
    (add_failure name reason uid tags fx r = .ok r1 →
       dlookup uid r1.failure_by_id
         = some (name, "ISSUE " ++ uid ++ ": " ++ reason)
       ∧ dlookup uid (gen_json ghost r1).failures
         = some (name, "ISSUE " ++ uid ++ ": " ++ reason))
    ∧ (add_warning true name reason uid tags fx r = .ok r2 →
       dlookup uid r2.warning_by_id
         = some (name, "ISSUE " ++ uid ++ ": " ++ reason)
       ∧ dlookup uid (gen_json ghost r2).warnings
         = some (name, "ISSUE " ++ uid ++ ": " ++ reason)) := by
  constructor
  · intro h
    obtain ⟨fr, hfr, hb, _, _, _, _⟩ := add_failure_ok name reason uid tags fx r r1 h
    have h2 := format_issue_free reason uid hbr
    rw [hfr] at h2
    injection h2 with h3
    subst h3
    refine ⟨?_, ?_⟩
    · rw [hb, dlookup_dset_self]
    · show dlookup uid r1.failure_by_id = _
      rw [hb, dlookup_dset_self]
  · intro h
    obtain ⟨fr, hfr, hb, _, _, _, _⟩ := add_warning_ok name reason uid tags fx r r2 h
    have h2 := format_issue_free reason uid hbr
    rw [hfr] at h2
    injection h2 with h3
    subst h3
    refine ⟨?_, ?_⟩
    · rw [hb, dlookup_dset_self]
    · show dlookup uid r2.warning_by_id = _
      rw [hb, dlookup_dset_self]

/-- Witness for `c9_issue_code_reason` on the concrete reports rF1 and rW1. -/
theorem c9_issue_code_reason_witness :
    dlookup "u" rF1.failure_by_id = some ("a", "ISSUE u: x")
    ∧ dlookup "u" (gen_json "h" rF1).failures = some ("a", "ISSUE u: x")
    ∧ dlookup "u" rW1.warning_by_id = some ("a", "ISSUE u: x")
    ∧ dlookup "u" (gen_json "h" rW1).warnings = some ("a", "ISSUE u: x") := by
  obtain ⟨h1, h2⟩ := c9_issue_code_reason "a" "x" "u" "h" [] none emptyReport rF1 rW1
    (by decide)
  obtain ⟨a1, a2⟩ := h1 rfl
  obtain ⟨b1, b2⟩ := h2 rfl
  exact ⟨a1, a2, b1, b2⟩

/-- C10 counterexample: with "a" already classified as a failure and no
tags entry, add_success with "a" among its own tags does not raise —
the whole body is skipped — contradicting the claim that such a call
always raises a key-lookup error. -/
theorem c10_no_raise_when_classified :
    add_success "a" ["a"] reportFnoTags = .ok reportFnoTags := rfl

/-- C10 (amended): for brace-free reasons with no fix, the record
operations are total when the name is not among its own tags or already
has a tags entry; when the name is among its own tags with no prior
entry, the initialization is skipped and KeyError is raised — by
add_failure always, by add_success only when the name is unclassified,
and by add_warning when warnings are enabled. -/
theorem c10_totality (name reason uid : String) (tags : List String)
    (r : Report) (hbr : brace_free reason = true) :
    ((name ∉ tags ∨ (dlookup name r.tags).isSome) →
       (∃ r', add_failure name reason uid tags none r = .ok r')
       ∧ (∃ r', add_success name tags r = .ok r')
       ∧ (∃ r', add_warning true name reason uid tags none r = .ok r'))
    ∧ (name ∈ tags → dlookup name r.tags = none →
       add_failure name reason uid tags none r = .error "KeyError"
       ∧ (dcontains name r.failure = false → dcontains name r.warning = false →
            add_success name tags r = .error "KeyError")
       ∧ add_warning true name reason uid tags none r = .error "KeyError") := by
  constructor
  · intro h
    exact ⟨add_failure_total name reason uid tags r hbr h,
           add_success_total name tags r h,
           add_warning_total name reason uid tags r hbr h⟩
  · intro hmem hnone
    exact ⟨add_failure_keyerr name reason uid tags r hbr hmem hnone,
           fun hf hw => add_success_keyerr name tags r hf hw hmem hnone,
           add_warning_keyerr name reason uid tags r hbr hmem hnone⟩

/-- Witness for `c10_totality` in both directions on the empty report. -/
theorem c10_totality_witness :
    (∃ r', add_failure "a" "x" "u" ["t"] none emptyReport = .ok r')
    ∧ (∃ r', add_success "a" ["t"] emptyReport = .ok r')
    ∧ (∃ r', add_warning true "a" "x" "u" ["t"] none emptyReport = .ok r')
    ∧ add_failure "a" "x" "u" ["a"] none emptyReport = .error "KeyError"
    ∧ add_success "a" ["a"] emptyReport = .error "KeyError"
    ∧ add_warning true "a" "x" "u" ["a"] none emptyReport = .error "KeyError" := by
  obtain ⟨h1, _⟩ := c10_totality "a" "x" "u" ["t"] emptyReport (by decide)
  obtain ⟨_, h2⟩ := c10_totality "a" "x" "u" ["a"] emptyReport (by decide)
  obtain ⟨a1, a2, a3⟩ := h1 (Or.inl (by decide))
  obtain ⟨b1, b2, b3⟩ := h2 (by decide) rfl
  exact ⟨a1, a2, a3, b1, b2 rfl rfl, b3⟩

/-- C8: evaluating the code at the failing input — after storing the key
"hostname", the next host-state call replaces the mapping with the
hostname string and raises TypeError instead of upserting. -/
theorem c8_hostname_breaks_upsert :
    add_host_state "h" "hostname" (.str "x") emptyReport = .ok reportHS
    ∧ add_host_state "h" "k" (.str "y") reportHS = .error "TypeError" :=
  ⟨rfl, rfl⟩

/- The fix ledger (idempotent decorator, load_run_fixes, save_run_fixes). -/

/-- Process state for the fix ledger: the module-level `fixes_run` set
and an external execution trace recording each run of an underlying
fix's side effect, by the fix's `__name__`. -/
structure FixState where
  fixes_run : List String
  trace : List String

/-- The wrapper produced by the `idempotent` decorator: return at once
when the fix's name is already in `fixes_run`, otherwise run the fix
(its side effect appends its name to the trace) and add the name to the
set. -/
def idempotent_run (name : String) (st : FixState) : FixState :=
  if name ∈ st.fixes_run then st
  else { fixes_run := sadd name st.fixes_run, trace := st.trace ++ [name] }

/-- Source `save_run_fixes`: the ledger file holds `json.dumps(list(fixes_run))`. -/
def save_run_fixes (st : FixState) : List String := st.fixes_run

/-- Source `load_run_fixes`: add every name read from the ledger file to
`fixes_run`. -/
def load_run_fixes (file : List String) (st : FixState) : FixState :=
  { st with fixes_run := file.foldl (fun s f => sadd f s) st.fixes_run }

/-- A fresh process lifetime: `fixes_run = set()` at module import; the
outside world (the trace of already-performed side effects) carries
over. -/
def freshLifetime (st : FixState) : FixState :=
  { fixes_run := [], trace := st.trace }

/- The config block parser `parse_mconf`. -/

/-- One node of the parsed config tree: a `[key, value]` pair or a
`[key, children]` block. -/
inductive MConf where
  | kv : String → String → MConf
  | block : String → List MConf → MConf

/-- Split a character list at every occurrence of `c` (Python
`s.split(c)` for a one-character separator: empty fields kept). -/
def splitListOn (c : Char) : List Char → List (List Char)
  | [] => [[]]
  | x :: xs =>
    match splitListOn c xs with
    | [] => [[]]
    | g :: gs => if x = c then [] :: g :: gs else (x :: g) :: gs

/-- Python `str.split()` with no arguments: whitespace-run separated
words, no empty fields.  `cur` accumulates the current word reversed. -/
def wordsAux : List Char → List Char → List String
  | [], cur => if cur.isEmpty then [] else [String.mk cur.reverse]
  | c :: cs, cur =>
    if c.isWhitespace then
      if cur.isEmpty then wordsAux cs []
      else String.mk cur.reverse :: wordsAux cs []
    else wordsAux cs (c :: cur)

/-- Python `str.split()` with no arguments. -/
def pysplit (s : String) : List String := wordsAux s.data []

/-- Python `str.strip()`: drop whitespace from both ends. -/
def pystrip (s : String) : String :=
  String.mk (((s.data.dropWhile Char.isWhitespace).reverse.dropWhile
    Char.isWhitespace).reverse)

/-- Python strip with both quote characters: drop double- and single-quote
characters from both ends. -/
def stripQuotes (s : String) : String :=
  let isq := fun c => c = Char.ofNat 34 || c = Char.ofNat 39
  String.mk (((s.data.dropWhile isq).reverse.dropWhile isq).reverse)

/-- Python `s.startswith("#")`. -/
def startsWithHash (s : String) : Bool :=
  match s.data with
  | c :: _ => c = Char.ofNat 35
  | [] => false

/-- One level of `parse_mconf._helper` over the shared line cursor,
which is threaded in and the unconsumed suffix returned.  `fuel` bounds
the recursion depth; it is set to the number of lines, which suffices
because every recursive call consumes at least one line and the
returned cursor is always a suffix of the input. -/
def helperM : Nat → List String → (List MConf × List String)
  | 0, lines => ([], lines)
  | _ + 1, [] => ([], [])
  | fuel + 1, line :: rest =>
    match pysplit (pystrip line) with
    | [] => helperM fuel rest
    | t0 :: ts =>
      if startsWithHash t0 then helperM fuel rest
      else if (t0 :: ts).getLast (by simp) = String.mk [lbrace] then
        let child := helperM fuel rest
        let sib := helperM fuel child.2
        (MConf.block t0 child.1 :: sib.1, sib.2)
      else if (t0 :: ts).getLast (by simp) = String.mk [rbrace] then
        ([], rest)
      else
        let sib := helperM fuel rest
        (MConf.kv t0 (stripQuotes (String.intercalate " " ts)) :: sib.1, sib.2)

/-- Source `parse_mconf(data)`: the helper run over `data.splitlines()` (here:
split at newline characters; a trailing empty line is skipped by the
helper just like any blank line). -/
def parse_mconf (data : String) : List MConf :=
  let lines := (splitListOn (Char.ofNat 10) data.data).map String.mk
  (helperM lines.length lines).1

/-- C7: invoking the same wrapped fix twice within one ledger lifetime,
or once per lifetime with the ledger saved and reloaded in between,
executes the underlying side effect exactly once, keyed by the action's
name. -/
theorem c7_fix_idempotent (name : String) :
    (idempotent_run name (idempotent_run name ⟨[], []⟩)).trace = [name]
    ∧ (idempotent_run name
        (load_run_fixes (save_run_fixes (idempotent_run name ⟨[], []⟩))
          (freshLifetime (idempotent_run name ⟨[], []⟩)))).trace = [name] := by
  constructor <;>
    simp [idempotent_run, load_run_fixes, save_run_fixes, freshLifetime, sadd]

/-- C4 counterexample: on an unclosed block the parser returns an
ordinary tree, consuming to end of input — no error of any kind is
raised (no ConfigParseError exists in the code), contradicting the
claimed error reporting for unmatched braces. -/
theorem c4_no_parse_error :
    parse_mconf "a \x7b\n  b 1\n" = [MConf.block "a" [MConf.kv "b" "1"]] := rfl

/-- C4 (amended): the well-formed input produces the claimed tree, and
unmatched braces are silently tolerated — an unclosed block consumes to
end of input, and a stray closing brace ends the current level,
discarding the remaining lines of that level. -/
theorem c4_parse_mconf :
    parse_mconf "a \x7b\n  b 1\n\x7d\n" = [MConf.block "a" [MConf.kv "b" "1"]]
    ∧ parse_mconf "x \x7b\n  b 1\n" = [MConf.block "x" [MConf.kv "b" "1"]]
    ∧ parse_mconf "\x7d\na 1\n" = [] := ⟨rfl, rfl, rfl⟩

/- The serialization layer: `generate`, the external tabulate grid
   format, and the round-trip parser `read_report`. -/

/-- Lexicographic comparison on code points (Python string `<`). -/
def listCharLt : List Char → List Char → Bool
  | [], [] => false
  | [], _ :: _ => true
  | _ :: _, [] => false
  | x :: xs, y :: ys =>
    if x.toNat < y.toNat then true
    else if y.toNat < x.toNat then false
    else listCharLt xs ys

/-- Python string comparison, used by `sorted`. -/
def strLt (a b : String) : Bool := listCharLt a.data b.data

/-- Insertion into an ascending list (Python `sorted`). -/
def sinsert (x : String) : List String → List String
  | [] => [x]
  | y :: ys => if strLt x y then x :: y :: ys else y :: sinsert x ys

/-- Python `sorted` on a list of strings. -/
def ssort (l : List String) : List String := l.foldr sinsert []

/-- Insertion by key into an ascending association list. -/
def sinsertKey (x : String × α) : List (String × α) → List (String × α)
  | [] => [x]
  | y :: ys => if strLt x.1 y.1 then x :: y :: ys else y :: sinsertKey x ys

/-- Python `sorted(d.items())` for a dict (keys unique, so the key order
decides). -/
def ssortKey (l : List (String × α)) : List (String × α) := l.foldr sinsertKey []

/-- Greedy refilling of words to a line width, the core of the external
`textwrap.fill`. -/
def fillWords (width : Nat) : String → List String → List String
  | cur, [] => [cur]
  | cur, w :: ws =>
    if cur.length + 1 + w.length ≤ width then fillWords width (cur ++ " " ++ w) ws
    else cur :: fillWords width w ws

/-- Modelled from the external `textwrap.fill(txt, 60)` used by
`_wraptxt` with wrapping enabled (the WRAPTXT default): split into
whitespace-separated words and refill greedily to width 60. -/
def wraptxt (txt : String) : String :=
  match pysplit txt with
  | [] => ""
  | w :: ws => String.intercalate "\n" (fillWords 60 w ws)

/-- The tags column cell of `generate`: the newline-joined sorted tags
of the name (KeyError when the report holds no tags entry, as in
Python). -/
def tagsCell (r : Report) (name : String) : Except String String :=
  match dlookup name r.tags with
  | none => .error "KeyError"
  | some ts => .ok (String.intercalate "\n" (ssort ts))

/-- The reasons cell of `generate` for one name: its by-id reason texts
in code order, each followed by its fix when one is indexed, every
entry wrapped (and given the trailing `post`, "\n" for warnings),
newline-joined. -/
def reasonsCell (by_id : List (String × (String × String)))
    (fix_by_id : List (String × String)) (ids : List String) (post : String) :
    Except String String := do
  let base ← ids.foldlM (fun acc fid =>
    match dlookup fid by_id with
    | none => .error "KeyError"
    | some nr =>
      match dlookup fid fix_by_id with
      | some f => .ok (acc ++ [nr.2, f])
      | none => .ok (acc ++ [nr.2])) ([] : List String)
  .ok (String.intercalate "\n" (base.map (fun t => wraptxt t ++ post)))

/-- Modelled from Python `str()` on host-state values: strings are
themselves; a dict nested deeper than the explicit two-level rendering
below (never produced by the repo's checks) gets a placeholder repr. -/
def pyStrPyVal : PyVal → String
  | .str s => s
  | .dict _ => "dict"

/-- The host-state rows of `generate`: nested dicts rendered with the
source's two-level indentation scheme. -/
def hostStateRows (m : List (String × PyVal)) : List (String × String) :=
  m.map (fun kv =>
    match kv.2 with
    | .dict d =>
      let acc1 := (ssortKey d).map (fun ab =>
        match ab.2 with
        | .dict b2 =>
          let acc2 := (ssortKey b2).map
            (fun cd => "  " ++ cd.1 ++ ": " ++ pyStrPyVal cd.2)
          ab.1 ++ ":\n" ++ String.intercalate "\n" acc2
        | .str s => ab.1 ++ ": " ++ s)
      (kv.1, String.intercalate "\n" acc1)
    | .str s => (kv.1, s))

/-- Split a cell into its text lines. -/
def splitNL (s : String) : List String :=
  (splitListOn (Char.ofNat 10) s.data).map String.mk

/-- One pipe-delimited text line of the grid format. -/
def gridDataLine (cells : List String) : String :=
  "| " ++ String.intercalate " | " cells ++ " |"

/-- The text lines of one table row: the row is padded to the column
count with the empty missing-value; a cell containing newlines spreads
the row over several lines, the other columns supplying empty
continuation cells. -/
def rowLines (ncols : Nat) (row : List String) : List String :=
  let cells := (row ++ List.replicate (ncols - row.length) "").map splitNL
  let h := cells.foldl (fun m c => max m c.length) 1
  (List.range h).map (fun i => gridDataLine (cells.map (fun c => c.getD i "")))

/-- Modelled from the external `tabulate(rows, headers, tablefmt="grid")`:
the pipe/line structure of the grid format.  Cell padding widths and
border dash counts are elided, because the round-trip parser strips
each cell and skips every pipe-free line, so only the pipe-delimited
structure is observable.  Headers shorter than the column count are
aligned to the last columns; rows shorter than it are padded at the
end. -/
def tabulate_grid (headers : List String) (rows : List (List String)) :
    List String :=
  let ncols := rows.foldl (fun m r => max m r.length) headers.length
  let hdr := List.replicate (ncols - headers.length) "" ++ headers
  ["+----+"] ++ rowLines ncols hdr ++ ["+====+"] ++
    (rows.map (fun r => rowLines ncols r ++ ["+----+"])).flatten

/-- Source `Report.generate()` as the list of text lines it returns (gen_report
writes the joined lines to the report file; `read_report` consumes that
file line by line).  `ghost` stands in for `socket.gethostname()`.  A
host_state corrupted to a string (see `add_host_state`) makes the
`.items()` iteration raise. -/
def generate (ghost : String) (r : Report) : Except String (List String) := do
  let s ← (ssort r.success).mapM (fun x => do
    let tc ← tagsCell r x
    pure [x, SUCCESS, "", "", tc])
  let w ← (ssortKey r.warning_id).mapM (fun nw => do
    let rc ← reasonsCell r.warning_by_id r.fix_by_id nw.2 "\n"
    let tc ← tagsCell r nw.1
    pure [nw.1, WARNING, rc, tc])
  let f ← (ssortKey r.failure_id).mapM (fun nf => do
    let rc ← reasonsCell r.failure_by_id r.fix_by_id nf.2 ""
    let tc ← tagsCell r nf.1
    pure [nf.1, FAILURE, rc, tc])
  let r1 := tabulate_grid ["Test", "Status", "Reasons", "Tags"] (f ++ w ++ s)
  match r.host_state with
  | .map [] => .ok r1
  | .map m =>
    let hn := match r.hostname with
              | none => ghost
              | some "" => ghost
              | some h => h
    let r2 := tabulate_grid ["State", "Value"]
      ((ssortKey (hostStateRows m)).map (fun p => [p.1, p.2]))
    .ok (("HOST: " ++ hn) :: (r1 ++ r2))
  | .strv _ => .error "AttributeError"

/-- The `read_report` line loop.  `hskip`, `prevr`, `prevt` model the
header_skip/prevr/prevt variables; the latter two start as None, and a
status comparison against None never succeeds, so the `getD ""`
defaults on the carried-forward test name are unreachable. -/
def readLines (w : Bool) : List String → Bool → Option String → Option String →
    Report → Except String Report
  | [], _, _, _, rep => .ok rep
  | line :: rest, hskip, prevr, prevt, rep =>
    if !(line.data.any (fun c => c = '|')) then
      readLines w rest hskip prevr prevt rep
    else if hskip then readLines w rest false prevr prevt rep
    else
      match (((splitListOn '|' line.data).map String.mk).map pystrip).drop 1
          |>.dropLast with
      | [test, result, reason, uid, tags] =>
        let rOpt : Option String := if result = "" then prevr else some result
        let tOpt : Option String := if result = "" then prevt else some test
        let step : Except String Report :=
          if rOpt = some FAILURE then
            add_failure (tOpt.getD "") reason uid (pysplit tags) none rep
          else if rOpt = some WARNING then
            add_warning w (tOpt.getD "") reason uid (pysplit tags) none rep
          else if rOpt = some SUCCESS then
            add_success (tOpt.getD "") (pysplit tags) rep
          else .ok rep
        match step with
        | .error e => .error e
        | .ok rep2 => readLines w rest false rOpt tOpt rep2
      | _ => .error "ValueError"

/-- Source `read_report(infile)` over the lines of the report file, with the
WARNINGS switch consulted by its add_warning calls. -/
def read_report (w : Bool) (lines : List String) : Except String Report :=
  readLines w lines true none none emptyReport

/-- C2 evaluated at the failing input: a report holding a single failure
renders as a four-column table (generate emits no code column for
failure rows), and the round-trip parser — which unpacks five fields
from every data row — raises ValueError instead of reconstructing the
report. -/
theorem c2_roundtrip_fails :
    (add_failure "t" "r" "u" [] none emptyReport).bind
      (fun rep => (generate "h" rep).bind (read_report true))
      = .error "ValueError" := rfl
